import Mathlib

/-!
Verification of the data-pipeline in
`Figure9_PhaseStability/Equilibrate_Calcs.ipynb` of the
MaunaLoa_FIs_Xenoliths_2025 repository.

The notebook loads an Excel table of experimental liquid compositions,
zero-fills missing values (`Data = Data.fillna(0.0)`), converts measured
oxygen fugacity to a ferric-iron fraction via
`Thermobar.convert_fo2_to_fe_partition`, and then loops over five
thermodynamic models, calling `PetThermoTools.equilibrate_multi` for each
and writing one Excel file per model.

Embedding choices:
* spreadsheet numbers are modelled by `ℚ`; the oxygen fugacity value
  `10 ** logfO2` lives in `ℝ` (real exponentiation);
* the two external scientific routines are black boxes to this
  repository: the per-row Kress & Carmichael computation is an abstract
  function parameter (`RowConv`), the per-row equilibration engine is an
  abstract function parameter (`Engine`); the surrounding vectorised
  plumbing (`convert_fo2_to_fe_partition`, `equilibrate_multi`) is
  modelled from the spec where its body is outside the repository;
* Python exceptions are modelled by `Except String`;
* the model loop is modelled as a trace of events (equilibration calls
  and file writes) so that ordering and failure behaviour are visible.
-/

set_option autoImplicit false

/-- One row of the cleaned experimental data table
`df_for_MELTS_H2O_fo2.xlsx`: the twelve liquid oxide columns, the
conditions columns (`T_C` in Celsius, `P_GPa` in gigapascals, `logfO2`
as log10 oxygen fugacity) and the identifier columns. -/
structure Row where
  SiO2_Liq : ℚ
  TiO2_Liq : ℚ
  Al2O3_Liq : ℚ
  FeOt_Liq : ℚ
  Cr2O3_Liq : ℚ
  MnO_Liq : ℚ
  MgO_Liq : ℚ
  CaO_Liq : ℚ
  Na2O_Liq : ℚ
  K2O_Liq : ℚ
  P2O5_Liq : ℚ
  H2O_Liq : ℚ
  T_C : ℚ
  P_GPa : ℚ
  logfO2 : ℚ
  Experiment : String
  Citation : String
deriving DecidableEq

/-- The twelve-column liquid-composition sub-table selected by
`Data.loc[:, ['SiO2_Liq', ..., 'H2O_Liq']]` in the notebook. -/
structure LiqComps where
  SiO2_Liq : ℚ
  TiO2_Liq : ℚ
  Al2O3_Liq : ℚ
  FeOt_Liq : ℚ
  Cr2O3_Liq : ℚ
  MnO_Liq : ℚ
  MgO_Liq : ℚ
  CaO_Liq : ℚ
  Na2O_Liq : ℚ
  K2O_Liq : ℚ
  P2O5_Liq : ℚ
  H2O_Liq : ℚ
deriving DecidableEq

/-- Projection of a row onto the twelve oxide columns. -/
def liqOf (r : Row) : LiqComps :=
  ⟨r.SiO2_Liq, r.TiO2_Liq, r.Al2O3_Liq, r.FeOt_Liq, r.Cr2O3_Liq, r.MnO_Liq,
   r.MgO_Liq, r.CaO_Liq, r.Na2O_Liq, r.K2O_Liq, r.P2O5_Liq, r.H2O_Liq⟩

/-- The fifteen numeric input columns of the conversion: the twelve
oxides plus `T_C`, `P_GPa`, `logfO2` (identifier columns excluded). -/
def numCols (r : Row) : LiqComps × ℚ × ℚ × ℚ :=
  (liqOf r, r.T_C, r.P_GPa, r.logfO2)

/-! ### Data ingestion: `Data = Data.fillna(0.0)`

The raw spreadsheet as loaded is a ragged grid of cells; a missing cell
(pandas `NaN`) is `none`. `fillna` replaces every missing cell, in every
column, by the given value — there is no per-column guard in the source. -/

/-- Model of `pandas.DataFrame.fillna(v)` on a grid of numeric cells. -/
def fillna (v : ℚ) (t : List (List (Option ℚ))) : List (List ℚ) :=
  t.map (fun row => row.map (fun c => c.getD v))

/-- The notebook's cleaning step: `Data = Data.fillna(0.0)`. -/
def cleanData (t : List (List (Option ℚ))) : List (List ℚ) :=
  fillna 0 t

/-- Cell access in a grid: row `i`, column `j`. -/
def getCell {α : Type} (t : List (List α)) (i j : ℕ) : Option α :=
  (t[i]?).bind (fun row => row[j]?)

/-! ### Ferric-iron conversion:
`pt.convert_fo2_to_fe_partition(liq_comps=..., T_K=..., P_kbar=...,
fo2=..., renorm=False, model="Kress1991")['Fe3Fet_Liq']` -/

/-- `10 ** logfO2`, the oxygen fugacity value passed as `fo2`. -/
noncomputable def tenPow (q : ℚ) : ℝ :=
  (10 : ℝ) ^ (q : ℝ)

/-- Abstract per-row ferric/ferrous conversion: the external Thermobar
computation for one liquid composition at given `T_K`, `P_kbar`, `fo2`,
`renorm` flag and calibration-model name, returning `Fe3Fet_Liq`. Its
body lives in the external Thermobar package, outside this repository. -/
def RowConv : Type :=
  LiqComps → ℚ → ℚ → ℝ → Bool → String → ℚ

/-- Modelled from the spec: `Thermobar.convert_fo2_to_fe_partition` is the
external "oxygen-fugacity-to-ferric/ferrous-iron-ratio conversion
operation parameterized by a named calibration model"; its body is not in
this repository. It applies the per-row conversion to the rows of its
vectorised arguments; only the `Fe3Fet_Liq` output column is modelled,
since that is the only column the notebook uses. -/
def convert_fo2_to_fe_partition (conv : RowConv) (liq_comps : List LiqComps)
    (T_K P_kbar : List ℚ) (fo2 : List ℝ) (renorm : Bool) (model : String) :
    List ℚ :=
  (((liq_comps.zip T_K).zip P_kbar).zip fo2).map
    (fun x => conv x.1.1.1 x.1.1.2 x.1.2 x.2 renorm model)

/-- The `T_K` argument built by the notebook: `Data['T_C'] + 273.15`. -/
def T_K_arg (d : List Row) : List ℚ :=
  d.map (fun r => r.T_C + 273.15)

/-- The `P_kbar` argument built by the notebook: `Data['P_GPa'] * 10`. -/
def P_kbar_arg (d : List Row) : List ℚ :=
  d.map (fun r => r.P_GPa * 10)

/-- The `fo2` argument built by the notebook: `10 ** Data['logfO2']`. -/
noncomputable def fo2_arg (d : List Row) : List ℝ :=
  d.map (fun r => tenPow r.logfO2)

/-- The `liq_comps` argument built by the notebook:
`Data.loc[:, ['SiO2_Liq', ..., 'H2O_Liq']]`. -/
def liq_comps_arg (d : List Row) : List LiqComps :=
  d.map liqOf

/-- The notebook's `Fe3Fet_Liq` series: the `'Fe3Fet_Liq'` column of
`pt.convert_fo2_to_fe_partition` applied to the wrangled arguments, with
`renorm=False` and `model="Kress1991"`. -/
noncomputable def Fe3Fet_Liq_series (conv : RowConv) (d : List Row) : List ℚ :=
  convert_fo2_to_fe_partition conv (liq_comps_arg d) (T_K_arg d)
    (P_kbar_arg d) (fo2_arg d) false "Kress1991"

/-! ### Per-model equilibration: `ptt.equilibrate_multi` -/

/-- Abstract per-row equilibration engine: given the model name, a bulk
row and its `T_C`, `P_bar` and `Fe3Fet_Liq` values, either returns the
computed phase data (of abstract type `α`) or fails. The real engine is
the external PetThermoTools / alphaMELTS / MAGEMin stack, outside this
repository. -/
def Engine (α : Type) : Type :=
  String → Row → ℚ → ℚ → ℚ → Except String α

/-- Value of a named string column of a row, used for `copy_columns`. -/
def strCol (r : Row) : String → String
  | "Experiment" => r.Experiment
  | "Citation" => r.Citation
  | _ => ""

/-- One row of an `equilibrate_multi` output table: the engine's computed
phase columns plus the values copied from the named `copy_columns`. -/
structure OutRow (α : Type) where
  phases : α
  copied : List (String × String)
deriving DecidableEq

/-- The copied identifier cells for one input row. -/
def mkCopied (copy_columns : List String) (r : Row) : List (String × String) :=
  copy_columns.map (fun c => (c, strCol r c))

/-- Sequencing of row-wise `Except` results: all succeed, or the
computation fails with the first error. -/
def collectExcept {α : Type} : List (Except String α) → Except String (List α)
  | [] => .ok []
  | .error e :: _ => .error e
  | .ok b :: rest => (collectExcept rest).map (fun l => b :: l)

/-- Row-wise pairing of the bulk table with the `T_C`, `P_bar` and
`Fe3Fet_Liq` argument vectors. -/
def zip4 (bulk : List Row) (tC pB f3 : List ℚ) : List (Row × ℚ × ℚ × ℚ) :=
  bulk.zip (tC.zip (pB.zip f3))

/-- Modelled from the spec: `PetThermoTools.equilibrate_multi` is the
external "multi-row equilibration routine" invoked "with the table's
pressure/temperature/composition columns and a precomputed ferric-iron
fraction column"; its body is not in this repository. Per the spec it
computes equilibrium phases row by row (through the abstract engine) and
the output carries, for each row, the values of the `copy_columns`
copied from the corresponding input row; a failure of the external call
propagates as a failure of the whole call. -/
def equilibrate_multi {α : Type} (eng : Engine α) (Model : String)
    (bulk : List Row) (T_C P_bar Fe3Fet_Liq : List ℚ)
    (copy_columns : List String) : Except String (List (OutRow α)) :=
  collectExcept ((zip4 bulk T_C P_bar Fe3Fet_Liq).map
    (fun x => (eng Model x.1 x.2.1 x.2.2.1 x.2.2.2).map
      (fun p => OutRow.mk p (mkCopied copy_columns x.1))))

/-! ### The model loop -/

/-- The notebook's model list:
`model = ["MELTSv1.2.0", "MELTSv1.0.2", "pMELTS", "Green2025", "Weller2024"]`. -/
def model : List String :=
  ["MELTSv1.2.0", "MELTSv1.0.2", "pMELTS", "Green2025", "Weller2024"]

/-- The `T_C` argument of the loop body: `Data['T_C'].astype(float).values`. -/
def T_C_arg (d : List Row) : List ℚ :=
  d.map Row.T_C

/-- The `P_bar` argument of the loop body:
`Data['P_GPa'].astype(float).values * 10000.0`. -/
def P_bar_arg (d : List Row) : List ℚ :=
  d.map (fun r => r.P_GPa * 10000)

/-- The loop body's equilibration call for one model `m`:
`ptt.equilibrate_multi(Model=m, bulk=Data, T_C=..., P_bar=...,
Fe3Fet_Liq=..., copy_columns=["Experiment", "Citation"])`. -/
def equilibrateCall {α : Type} (eng : Engine α) (d : List Row)
    (fe3 : List ℚ) (m : String) : Except String (List (OutRow α)) :=
  equilibrate_multi eng m d (T_C_arg d) (P_bar_arg d) fe3
    ["Experiment", "Citation"]

/-- Observable events of the loop: an equilibration call for a model, and
a spreadsheet write of named sheets to a named file. -/
inductive Ev (α : Type) where
  | runEq (m : String)
  | writeXlsx (file : String) (sheets : List (String × List (OutRow α)))
deriving DecidableEq

/-- The model loop of the notebook, as the trace of events it performs
together with the uncaught exception, if any: for each model in order it
calls `equilibrate_multi` and, on success, writes the combined table to
`m + '_filt_withfO2_H2O.xlsx'` as the single sheet `'All Data'`; an
exception aborts the loop at once (there is no `try`/`except` in the
source), leaving the files already written untouched. -/
def runLoop {α : Type} (eng : Engine α) (d : List Row) (fe3 : List ℚ) :
    List String → List (Ev α) × Option String
  | [] => ([], none)
  | m :: ms =>
    match equilibrateCall eng d fe3 m with
    | .error e => ([Ev.runEq m], some e)
    | .ok Combined =>
      let rest := runLoop eng d fe3 ms
      (Ev.runEq m ::
        Ev.writeXlsx (m ++ "_filt_withfO2_H2O.xlsx") [("All Data", Combined)] ::
        rest.1,
       rest.2)

/-- The files written in a trace, with their sheets. -/
def writesOf {α : Type} (tr : List (Ev α)) :
    List (String × List (String × List (OutRow α))) :=
  tr.filterMap (fun ev => match ev with
    | .writeXlsx f s => some (f, s)
    | .runEq _ => none)

/-- The combined output table of one model's successful equilibration
call (the empty table when the call fails; only used under a success
hypothesis). -/
def combinedOf {α : Type} (eng : Engine α) (d : List Row) (fe3 : List ℚ)
    (m : String) : List (OutRow α) :=
  match equilibrateCall eng d fe3 m with
  | .ok C => C
  | .error _ => []

/-! ### Concrete instances used by witnesses -/

/-- An engine that always succeeds, returning a unit phase payload. -/
def engOK : Engine Unit :=
  fun _ _ _ _ _ => .ok ()

/-- An engine that fails exactly for the model `"pMELTS"`. -/
def engFailPMELTS : Engine Unit :=
  fun m _ _ _ _ => if m = "pMELTS" then .error "lost" else .ok ()

/-- A constant per-row conversion. -/
def convZero : RowConv :=
  fun _ _ _ _ _ _ => 0

/-- The single row of the end-to-end scenario: `P_GPa = 1.0`,
`T_C = 1200`, `logfO2 = -8`, a full oxide suite, `Experiment = "E1"`,
`Citation = "C1"`. -/
def row1 : Row :=
  ⟨50, 2, 13, 11, 1/10, 1/5, 7, 11, 23/10, 2/5, 1/5, 1/2, 1200, 1, -8,
   "E1", "C1"⟩

/-- A second concrete row, differing from `row1` in its numeric data. -/
def row2 : Row :=
  ⟨48, 1, 15, 10, 0, 0, 6, 12, 2, 1, 0, 1, 1100, 2, -7, "E0", "C0"⟩

/-- `row1` with a different `Experiment` identifier and the same numeric
columns. -/
def row1E2 : Row :=
  { row1 with Experiment := "E2" }

/-! ### Helper lemmas -/

/-- A successful `collectExcept` means every element was a success, in
order. -/
theorem collectExcept_ok {α : Type} :
    ∀ {l : List (Except String α)} {out : List α},
      collectExcept l = .ok out → l = out.map Except.ok := by
  intro l
  induction l with
  | nil =>
    intro out h
    simp only [collectExcept] at h
    cases h
    rfl
  | cons a rest ih =>
    intro out h
    cases a with
    | error e => simp [collectExcept] at h
    | ok b =>
      cases hr : collectExcept rest with
      | error e =>
        rw [collectExcept, hr] at h
        simp [Except.map] at h
      | ok o =>
        rw [collectExcept, hr] at h
        simp only [Except.map] at h
        cases h
        simp [ih hr]

/-- `zip4` of columns all derived from the same table is a row-wise map. -/
theorem zip4_maps (d : List Row) (f g h : Row → ℚ) :
    zip4 d (d.map f) (d.map g) (d.map h)
      = d.map (fun r => (r, f r, g r, h r)) := by
  induction d with
  | nil => rfl
  | cons r t ih =>
    simp only [zip4, List.map_cons, List.zip_cons_cons] at ih ⊢
    rw [ih]

/-- The `Fe3Fet_Liq` series is the row-wise application of the per-row
conversion to the wrangled columns. -/
theorem Fe3Fet_series_eq (conv : RowConv) (d : List Row) :
    Fe3Fet_Liq_series conv d
      = d.map (fun r =>
          conv (liqOf r) (r.T_C + 273.15) (r.P_GPa * 10)
            (tenPow r.logfO2) false "Kress1991") := by
  induction d with
  | nil => rfl
  | cons r t ih =>
    simp only [Fe3Fet_Liq_series, convert_fo2_to_fe_partition, liq_comps_arg,
      T_K_arg, P_kbar_arg, fo2_arg, List.map_cons, List.zip_cons_cons] at ih ⊢
    rw [ih]

/-- The loop-body equilibration call, with the ferric-iron column given
as a row-wise map of the table, is `collectExcept` of a row-wise map. -/
theorem equilibrateCall_map {α : Type} (eng : Engine α) (d : List Row)
    (g : Row → ℚ) (m : String) :
    equilibrateCall eng d (d.map g) m
      = collectExcept (d.map (fun r =>
          (eng m r r.T_C (r.P_GPa * 10000) (g r)).map
            (fun p => OutRow.mk p (mkCopied ["Experiment", "Citation"] r)))) := by
  unfold equilibrateCall equilibrate_multi T_C_arg P_bar_arg
  rw [zip4_maps, List.map_map]
  rfl

/-- Pointwise characterization of a successful loop-body call. -/
theorem equilibrateCall_ok_pointwise {α : Type} (eng : Engine α) (d : List Row)
    (g : Row → ℚ) (m : String) (out : List (OutRow α))
    (h : equilibrateCall eng d (d.map g) m = .ok out) (i : ℕ) :
    (out[i]?).map Except.ok
      = (d[i]?).map (fun r =>
          (eng m r r.T_C (r.P_GPa * 10000) (g r)).map
            (fun p => OutRow.mk p (mkCopied ["Experiment", "Citation"] r))) := by
  rw [equilibrateCall_map] at h
  have hmap := collectExcept_ok h
  calc (out[i]?).map Except.ok
      = (out.map Except.ok)[i]? := (List.getElem?_map ..).symm
    _ = ((d.map _)[i]?) := by rw [← hmap]
    _ = _ := List.getElem?_map ..

/-- A successful loop-body call has as many output rows as input rows. -/
theorem equilibrateCall_ok_length {α : Type} (eng : Engine α) (d : List Row)
    (g : Row → ℚ) (m : String) (out : List (OutRow α))
    (h : equilibrateCall eng d (d.map g) m = .ok out) :
    out.length = d.length := by
  rw [equilibrateCall_map] at h
  have hmap := collectExcept_ok h
  have := congrArg List.length hmap
  simpa using this.symm

/-- The copied cells for the notebook's `copy_columns` are exactly the
two identifier values of the row. -/
theorem mkCopied_ids (r : Row) :
    mkCopied ["Experiment", "Citation"] r
      = [("Experiment", r.Experiment), ("Citation", r.Citation)] := rfl

/-- In a successful loop-body call, the output row at index `i` carries
the identifiers of the input row at index `i`. -/
theorem equilibrateCall_ok_copied {α : Type} (eng : Engine α) (d : List Row)
    (g : Row → ℚ) (m : String) (out : List (OutRow α)) (i : ℕ) (r : Row)
    (o : OutRow α) (h : equilibrateCall eng d (d.map g) m = .ok out)
    (hr : d[i]? = some r) (ho : out[i]? = some o) :
    o.copied = [("Experiment", r.Experiment), ("Citation", r.Citation)] := by
  have hp := equilibrateCall_ok_pointwise eng d g m out h i
  rw [hr, ho] at hp
  have hp2 : Except.ok o
      = Except.map (fun p => OutRow.mk p (mkCopied ["Experiment", "Citation"] r))
          (eng m r r.T_C (r.P_GPa * 10000) (g r)) := Option.some.inj hp
  cases he : eng m r r.T_C (r.P_GPa * 10000) (g r) with
  | error e => rw [he] at hp2; simp [Except.map] at hp2
  | ok p =>
    rw [he] at hp2
    simp only [Except.map, Except.ok.injEq] at hp2
    rw [hp2, mkCopied_ids]

/-- Every equilibration event in the loop trace belongs to a model of the
iterated list. -/
theorem runEq_mem_runLoop {α : Type} (eng : Engine α) (d : List Row)
    (fe3 : List ℚ) :
    ∀ (ms : List String) (x : String),
      Ev.runEq x ∈ (runLoop eng d fe3 ms).1 → x ∈ ms := by
  intro ms
  induction ms with
  | nil =>
    intro x h
    simp [runLoop] at h
  | cons m ms ih =>
    intro x h
    cases hc : equilibrateCall eng d fe3 m with
    | error e =>
      simp [runLoop, hc] at h
      simp [h]
    | ok C =>
      simp only [runLoop, hc, List.mem_cons] at h
      rcases h with h | h | h
      · injection h with h
        simp [h]
      · exact absurd h (by simp)
      · exact List.mem_cons_of_mem m (ih x h)

/-- If every model of the prefix succeeds and model `m` fails, the loop
performs exactly the prefix trace followed by the failing call, and
raises. -/
theorem runLoop_append_error {α : Type} (eng : Engine α) (d : List Row)
    (fe3 : List ℚ) (m e : String) (ms2 : List String)
    (herr : equilibrateCall eng d fe3 m = .error e) :
    ∀ ms1 : List String,
      (∀ x ∈ ms1, (equilibrateCall eng d fe3 x).isOk = true) →
      runLoop eng d fe3 (ms1 ++ m :: ms2)
        = ((runLoop eng d fe3 ms1).1 ++ [Ev.runEq m], some e) := by
  intro ms1
  induction ms1 with
  | nil =>
    intro _
    simp [runLoop, herr]
  | cons x ms1 ih =>
    intro hok
    have h1 : (equilibrateCall eng d fe3 x).isOk = true := hok x (by simp)
    obtain ⟨C, hC⟩ : ∃ C, equilibrateCall eng d fe3 x = .ok C := by
      cases hcc : equilibrateCall eng d fe3 x with
      | error e2 => rw [hcc] at h1; simp [Except.isOk, Except.toBool] at h1
      | ok C => exact ⟨C, rfl⟩
    have ih2 := ih (fun y hy => hok y (by simp [hy]))
    rw [List.cons_append]
    simp only [runLoop, hC, ih2]
    simp

/-- On a fully successful run, the loop trace is the per-model sequence
of an equilibration call immediately followed by the corresponding file
write, in list order. -/
theorem runLoop_ok_trace {α : Type} (eng : Engine α) (d : List Row)
    (fe3 : List ℚ) :
    ∀ ms : List String, (runLoop eng d fe3 ms).2 = none →
      (runLoop eng d fe3 ms).1
        = ms.flatMap (fun m =>
            [Ev.runEq m,
             Ev.writeXlsx (m ++ "_filt_withfO2_H2O.xlsx")
               [("All Data", combinedOf eng d fe3 m)]]) := by
  intro ms
  induction ms with
  | nil => intro _; rfl
  | cons m ms ih =>
    intro h
    cases hc : equilibrateCall eng d fe3 m with
    | error e =>
      rw [show (runLoop eng d fe3 (m :: ms)).2 = some e by simp [runLoop, hc]] at h
      cases h
    | ok C =>
      have h2 : (runLoop eng d fe3 ms).2 = none := by
        simpa [runLoop, hc] using h
      have hcomb : combinedOf eng d fe3 m = C := by
        simp [combinedOf, hc]
      simp [runLoop, hc, ih h2, hcomb]

/-- `writesOf` drops an equilibration event. -/
theorem writesOf_cons_runEq {α : Type} (m : String) (tr : List (Ev α)) :
    writesOf (Ev.runEq m :: tr) = writesOf tr := by
  simp [writesOf]

/-- `writesOf` keeps a write event. -/
theorem writesOf_cons_write {α : Type} (f : String)
    (s : List (String × List (OutRow α))) (tr : List (Ev α)) :
    writesOf (Ev.writeXlsx f s :: tr) = (f, s) :: writesOf tr := by
  simp [writesOf]

/-- On a fully successful run, the files written are exactly one per
model, in order, each a single sheet named `All Data` holding that
model's combined result table. -/
theorem runLoop_ok_writes {α : Type} (eng : Engine α) (d : List Row)
    (fe3 : List ℚ) :
    ∀ ms : List String, (runLoop eng d fe3 ms).2 = none →
      writesOf (runLoop eng d fe3 ms).1
        = ms.map (fun m =>
            (m ++ "_filt_withfO2_H2O.xlsx",
             [("All Data", combinedOf eng d fe3 m)])) := by
  intro ms
  induction ms with
  | nil => intro _; rfl
  | cons m ms ih =>
    intro h
    cases hc : equilibrateCall eng d fe3 m with
    | error e =>
      rw [show (runLoop eng d fe3 (m :: ms)).2 = some e by simp [runLoop, hc]] at h
      cases h
    | ok C =>
      have h2 : (runLoop eng d fe3 ms).2 = none := by
        simpa [runLoop, hc] using h
      have hcomb : combinedOf eng d fe3 m = C := by
        simp [combinedOf, hc]
      simp [runLoop, hc, writesOf_cons_runEq, writesOf_cons_write, ih h2, hcomb]

/-- `writesOf` ignores a trailing equilibration event. -/
theorem writesOf_append_runEq {α : Type} (tr : List (Ev α)) (m : String) :
    writesOf (tr ++ [Ev.runEq m]) = writesOf tr := by
  simp [writesOf]

/-! ### Claim theorems -/

/-- C1: for every input table and every model in the batch loop, the
output table of the per-model equilibration step carries the identifier
columns `Experiment` and `Citation` unchanged: the identifiers of output
row `i` are copies of those of input row `i`. -/
theorem C1_identifier_columns_copied {α : Type} (eng : Engine α)
    (conv : RowConv) (d : List Row) (m : String) (out : List (OutRow α))
    (i : ℕ) (r : Row) (o : OutRow α)
    (h : equilibrateCall eng d (Fe3Fet_Liq_series conv d) m = .ok out)
    (hr : d[i]? = some r) (ho : out[i]? = some o) :
    o.copied = [("Experiment", r.Experiment), ("Citation", r.Citation)] := by
  rw [Fe3Fet_series_eq] at h
  exact equilibrateCall_ok_copied eng d _ m out i r o h hr ho

/-- C1 witness: a concrete successful one-row call whose output row
copies the identifiers of `row1`. -/
theorem C1_identifier_columns_copied_witness :
    (OutRow.mk () [("Experiment", "E1"), ("Citation", "C1")]).copied
      = [("Experiment", row1.Experiment), ("Citation", row1.Citation)] :=
  C1_identifier_columns_copied engOK convZero [row1] "MELTSv1.2.0"
    [OutRow.mk () [("Experiment", "E1"), ("Citation", "C1")]] 0 row1
    (OutRow.mk () [("Experiment", "E1"), ("Citation", "C1")])
    (by rfl) (by rfl) (by rfl)

/-- C2: for every input table and every model, a successful per-model
equilibration step yields exactly as many output rows as input rows. -/
theorem C2_row_count_preserved {α : Type} (eng : Engine α) (conv : RowConv)
    (d : List Row) (m : String) (out : List (OutRow α))
    (h : equilibrateCall eng d (Fe3Fet_Liq_series conv d) m = .ok out) :
    out.length = d.length := by
  rw [Fe3Fet_series_eq] at h
  exact equilibrateCall_ok_length eng d _ m out h

/-- C2 witness: the concrete one-row call produces one output row. -/
theorem C2_row_count_preserved_witness :
    ([OutRow.mk () [("Experiment", "E1"), ("Citation", "C1")]] :
        List (OutRow Unit)).length = [row1].length :=
  C2_row_count_preserved engOK convZero [row1] "MELTSv1.2.0" _ (by rfl)

/-- C3: during ingestion every missing cell of the loaded table, in every
column uniformly, is replaced by `0.0`, with present cells and the table
shape unchanged. -/
theorem C3_fillna_uniform_zero_fill (t : List (List (Option ℚ))) (i j : ℕ) :
    getCell (cleanData t) i j = (getCell t i j).map (fun c => c.getD 0)
    ∧ (cleanData t).length = t.length
    ∧ ((cleanData t)[i]?).map List.length = (t[i]?).map List.length := by
  refine ⟨?_, by simp [cleanData, fillna], ?_⟩
  · unfold getCell cleanData fillna
    rw [List.getElem?_map]
    cases t[i]? with
    | none => rfl
    | some row => simp [List.getElem?_map]
  · unfold cleanData fillna
    rw [List.getElem?_map]
    cases t[i]? <;> simp

/-- C4: if the equilibration call fails for model `m` after succeeding
for every model before it, the exception propagates out of the loop
uncaught: the loop stops at `m`, writes no file for `m`, the set of
written files is that of the prefix run, and no model other than the
prefix models and `m` was even called. -/
theorem C4_failure_propagates {α : Type} (eng : Engine α) (d : List Row)
    (fe3 : List ℚ) (ms1 ms2 : List String) (m e : String)
    (hok : ∀ x ∈ ms1, (equilibrateCall eng d fe3 x).isOk = true)
    (herr : equilibrateCall eng d fe3 m = .error e) :
    (runLoop eng d fe3 (ms1 ++ m :: ms2)).2 = some e
    ∧ (runLoop eng d fe3 (ms1 ++ m :: ms2)).1
        = (runLoop eng d fe3 ms1).1 ++ [Ev.runEq m]
    ∧ writesOf (runLoop eng d fe3 (ms1 ++ m :: ms2)).1
        = writesOf (runLoop eng d fe3 ms1).1
    ∧ ∀ x : String,
        Ev.runEq x ∈ (runLoop eng d fe3 (ms1 ++ m :: ms2)).1 →
          x ∈ ms1 ∨ x = m := by
  have hmain := runLoop_append_error eng d fe3 m e ms2 herr ms1 hok
  refine ⟨by rw [hmain], by rw [hmain], ?_, ?_⟩
  · rw [hmain]
    exact writesOf_append_runEq ..
  · intro x hx
    rw [hmain] at hx
    simp only [List.mem_append, List.mem_singleton] at hx
    rcases hx with hx | hx
    · exact Or.inl (runEq_mem_runLoop eng d fe3 ms1 x hx)
    · injection hx with hx
      exact Or.inr hx

/-- C4 witness: with an engine that fails exactly for `"pMELTS"`, the
first two models succeed and the loop raises the failure. -/
theorem C4_failure_propagates_witness :
    (∀ x ∈ ["MELTSv1.2.0", "MELTSv1.0.2"],
        (equilibrateCall engFailPMELTS [row1] [0] x).isOk = true)
    ∧ (runLoop engFailPMELTS [row1] [0]
        (["MELTSv1.2.0", "MELTSv1.0.2"] ++
          "pMELTS" :: ["Green2025", "Weller2024"])).2 = some "lost" :=
  ⟨by decide,
   (C4_failure_propagates engFailPMELTS [row1] [0]
      ["MELTSv1.2.0", "MELTSv1.0.2"] ["Green2025", "Weller2024"]
      "pMELTS" "lost" (by decide) (by rfl)).1⟩

/-- C5: the unit wrangling of the notebook maps `T_C` to kelvin by adding
`273.15`, `P_GPa` to kilobars by multiplying by `10`, `logfO2` to a
fugacity `10 ^ logfO2`, and `P_GPa` to bars by multiplying by `10000`,
so that row by row the bar and kilobar pressures describe the same
physical pressure: `P_bar = 1000 * P_kbar`. -/
theorem C5_unit_conversions (d : List Row) :
    T_K_arg d = d.map (fun r => r.T_C + 273.15)
    ∧ P_kbar_arg d = d.map (fun r => r.P_GPa * 10)
    ∧ fo2_arg d = d.map (fun r => (10 : ℝ) ^ ((r.logfO2 : ℚ) : ℝ))
    ∧ P_bar_arg d = d.map (fun r => r.P_GPa * 10000)
    ∧ P_bar_arg d = (P_kbar_arg d).map (fun p => 1000 * p) := by
  refine ⟨rfl, rfl, rfl, rfl, ?_⟩
  unfold P_bar_arg P_kbar_arg
  rw [List.map_map]
  have hfun : ((fun p => 1000 * p) ∘ fun (r : Row) => r.P_GPa * 10)
      = fun r : Row => r.P_GPa * 10000 := by
    funext r
    simp only [Function.comp]
    ring
  rw [hfun]

/-- C6: on a successful run, exactly one spreadsheet file is produced per
thermodynamic model, named by the model identifier concatenated with the
fixed suffix, each holding the single sheet `All Data` with that model's
combined results (whose rows carry the copied identifier columns). -/
theorem C6_one_file_per_model {α : Type} (eng : Engine α) (d : List Row)
    (fe3 : List ℚ) (h : (runLoop eng d fe3 model).2 = none) :
    writesOf (runLoop eng d fe3 model).1
      = model.map (fun m =>
          (m ++ "_filt_withfO2_H2O.xlsx",
           [("All Data", combinedOf eng d fe3 m)])) :=
  runLoop_ok_writes eng d fe3 model h

/-- C6 witness: a concrete all-success run over the five models. -/
theorem C6_one_file_per_model_witness :
    (runLoop engOK [row1] [0] model).2 = none
    ∧ writesOf (runLoop engOK [row1] [0] model).1
        = model.map (fun m =>
            (m ++ "_filt_withfO2_H2O.xlsx",
             [("All Data", combinedOf engOK [row1] [0] m)])) :=
  ⟨by rfl, C6_one_file_per_model engOK [row1] [0] (by rfl)⟩

/-- C7: end-to-end scenario on the one-row table `row1` (`P_GPa = 1.0`,
`T_C = 1200`, `logfO2 = -8`, full oxide suite, `Experiment = "E1"`,
`Citation = "C1"`): a successful equilibration step for model
`"MELTSv1.2.0"` produces exactly one output row, and it carries
`Experiment = "E1"` and `Citation = "C1"` next to the engine's phase
columns. -/
theorem C7_single_row_scenario {α : Type} (eng : Engine α) (conv : RowConv)
    (out : List (OutRow α))
    (h : equilibrateCall eng [row1] (Fe3Fet_Liq_series conv [row1])
           "MELTSv1.2.0" = .ok out) :
    out.length = 1
    ∧ ∀ o ∈ out, o.copied = [("Experiment", "E1"), ("Citation", "C1")] := by
  rw [Fe3Fet_series_eq] at h
  have hlen := equilibrateCall_ok_length eng [row1] _ "MELTSv1.2.0" out h
  refine ⟨by simpa using hlen, ?_⟩
  intro o ho
  obtain ⟨i, hi, hoi⟩ := List.mem_iff_getElem.mp ho
  have hoi2 : out[i]? = some o := by rw [List.getElem?_eq_getElem hi, hoi]
  have hi0 : i = 0 := by
    simp only [List.length_cons, List.length_nil] at hlen
    omega
  subst hi0
  exact equilibrateCall_ok_copied eng [row1] _ "MELTSv1.2.0" out 0 row1 o h
    (by rfl) hoi2

/-- C7 witness: the concrete scenario run with a unit-payload engine. -/
theorem C7_single_row_scenario_witness :
    ([OutRow.mk () [("Experiment", "E1"), ("Citation", "C1")]] :
        List (OutRow Unit)).length = 1
    ∧ ∀ o ∈ ([OutRow.mk () [("Experiment", "E1"), ("Citation", "C1")]] :
        List (OutRow Unit)),
        o.copied = [("Experiment", "E1"), ("Citation", "C1")] :=
  C7_single_row_scenario engOK convZero _ (by rfl)

/-- C8: the ferric-iron-fraction conversion of the notebook is
deterministic: applied to equal input rows (same oxides, conditions and
fugacity) under the fixed `"Kress1991"` calibration, it yields equal
`Fe3Fet_Liq` values, whatever table and position the rows sit in. -/
theorem C8_conversion_deterministic (conv : RowConv) (d1 d2 : List Row)
    (i j : ℕ) (r : Row) (h1 : d1[i]? = some r) (h2 : d2[j]? = some r) :
    (Fe3Fet_Liq_series conv d1)[i]? = (Fe3Fet_Liq_series conv d2)[j]? := by
  rw [Fe3Fet_series_eq, Fe3Fet_series_eq, List.getElem?_map,
    List.getElem?_map, h1, h2]

/-- C8 witness: the same row in two different tables and positions. -/
theorem C8_conversion_deterministic_witness :
    (Fe3Fet_Liq_series convZero [row1])[0]?
      = (Fe3Fet_Liq_series convZero [row2, row1])[1]? :=
  C8_conversion_deterministic convZero [row1] [row2, row1] 0 1 row1
    (by rfl) (by rfl)

/-- C9: the loop processes exactly the five listed models, strictly
sequentially and in the listed order; on a successful run the trace is,
model by model, the equilibration call immediately followed by that
model's file write, and every equilibration event in the trace belongs
to a listed model. -/
theorem C9_models_processed_in_order {α : Type} (eng : Engine α)
    (d : List Row) (fe3 : List ℚ)
    (h : (runLoop eng d fe3 model).2 = none) :
    (runLoop eng d fe3 model).1
      = model.flatMap (fun m =>
          [Ev.runEq m,
           Ev.writeXlsx (m ++ "_filt_withfO2_H2O.xlsx")
             [("All Data", combinedOf eng d fe3 m)]])
    ∧ ∀ x : String, Ev.runEq x ∈ (runLoop eng d fe3 model).1 → x ∈ model :=
  ⟨runLoop_ok_trace eng d fe3 model h,
   fun x hx => runEq_mem_runLoop eng d fe3 model x hx⟩

/-- C9 witness: a concrete all-success run of the five-model loop. -/
theorem C9_models_processed_in_order_witness :
    (runLoop engOK [row2] [0] model).2 = none
    ∧ (runLoop engOK [row2] [0] model).1
        = model.flatMap (fun m =>
            [Ev.runEq m,
             Ev.writeXlsx (m ++ "_filt_withfO2_H2O.xlsx")
               [("All Data", combinedOf engOK [row2] [0] m)]]) :=
  ⟨by rfl, (C9_models_processed_in_order engOK [row2] [0] (by rfl)).1⟩

/-- C10: the computed `Fe3Fet_Liq` series depends only on the twelve
liquid oxide columns, `T_C`, `P_GPa` and `logfO2`: two tables that agree
row-wise on those fifteen columns give identical series (the conversion
is called with `renorm = false`), whatever the identifier columns hold. -/
theorem C10_fe3_depends_only_on_numeric_columns (conv : RowConv)
    (d1 d2 : List Row) (h : d1.map numCols = d2.map numCols) :
    Fe3Fet_Liq_series conv d1 = Fe3Fet_Liq_series conv d2 := by
  have key : ∀ d : List Row,
      Fe3Fet_Liq_series conv d
        = (d.map numCols).map (fun x =>
            conv x.1 (x.2.1 + 273.15) (x.2.2.1 * 10) (tenPow x.2.2.2)
              false "Kress1991") := by
    intro d
    rw [Fe3Fet_series_eq, List.map_map]
    rfl
  rw [key, key, h]

/-- C10 witness: two one-row tables differing only in the `Experiment`
identifier have equal series. -/
theorem C10_fe3_depends_only_on_numeric_columns_witness :
    [row1].map numCols = [row1E2].map numCols
    ∧ Fe3Fet_Liq_series convZero [row1] = Fe3Fet_Liq_series convZero [row1E2] :=
  ⟨by rfl,
   C10_fe3_depends_only_on_numeric_columns convZero [row1] [row1E2] (by rfl)⟩
